import Mathlib

/-!
# Highlight Translator — verification of the background relay and flashcard storage

Shallow embedding of the extension's background message relay
(`src/unnamed/part_000`, both the local-storage version and the
Supabase-backed version, and the variant embedded in
`src/chrome-extension/manifest.ts`), of the bounded local translation
store, and of the flashcard import logic of
`src/pages/new-tab/src/Flashcard.tsx` /
`src/pages/content/src/matches/example/index.ts`.

JavaScript truthiness (`x || y`, `if (x)`) is modelled explicitly:
absent values are `Option.none`, and the empty string / `false` /
absent are falsy.
-/

namespace HighlightTranslator

/-- JS `a || b` on strings: `a` when non-empty, else `b`. -/
def jsOr (a b : String) : String := if a == "" then b else a

/-- JS `s.trim()`: strip whitespace from both ends (defined over the
character list so that it evaluates by kernel reduction). -/
def jsTrim (s : String) : String :=
  ⟨((s.data.dropWhile Char.isWhitespace).reverse.dropWhile Char.isWhitespace).reverse⟩

/-- JS `s.toLowerCase()` (over the character list, for kernel reduction). -/
def jsToLower (s : String) : String :=
  ⟨s.data.map Char.toLower⟩

/-- JS truthiness of a string value. -/
def truthyS (s : String) : Bool := s != ""

/-- JS truthiness of a possibly-absent string (`undefined`/`null` falsy). -/
def truthyOS : Option String → Bool
  | none => false
  | some s => truthyS s

/-- JS truthiness of a possibly-absent boolean. -/
def truthyOB (o : Option Bool) : Bool := o.getD false

/-- A record of the `translations` list kept in `chrome.storage.local`
(`{ original, translation, date: Date.now(), url }`). -/
structure Record where
  original : String
  translation : String
  date : Nat
  url : String
deriving DecidableEq

/-- Model of `saveTranslation` of the local-storage background script: append the new
record and keep only the latest 100 via `updated.slice(-100)`. -/
def saveTranslationLocal (translations : List Record)
    (original translation : String) (date : Nat) (url : String) : List Record :=
  let updated := translations ++ [⟨original, translation, date, url⟩]
  updated.drop (updated.length - 100)

/-- Folding a sequence of records into the store through `saveTranslationLocal`. -/
def insertAll (start : List Record) (rs : List Record) : List Record :=
  rs.foldl (fun acc r => saveTranslationLocal acc r.original r.translation r.date r.url) start

/-- The `TranslationResponse` object passed to `sendResponse`. -/
structure TranslationResponse where
  translation : Option String := none
  error : Option String := none
  fromCache : Option Bool := none
deriving DecidableEq

/-- Lookup in the in-memory cache object `cache[key]`. -/
def cacheGet (c : List (String × String)) (k : String) : Option String :=
  (c.find? (fun e => e.1 == k)).map (fun e => e.2)

/-- Assignment `cache[key] = v` (later writes shadow earlier ones). -/
def cacheSet (c : List (String × String)) (k v : String) : List (String × String) :=
  (k, v) :: c

/-- One entry of the DeepL response's `translations` array. -/
structure TranslationEntry where
  text : String
  detected_source_language : Option String := none
deriving DecidableEq

/-- Outcome of the `fetch` to the translation provider: a thrown error
(network failure / non-ok response / malformed body), or a parsed JSON
body with its `translations` array. -/
inductive FetchOutcome where
  | throws (msg : String)
  | ok (translations : List TranslationEntry)
deriving DecidableEq

/-- Model of `API_KEY && API_KEY.trim() !== '' && API_KEY !== 'undefined'`. -/
def apiKeyValid (k : String) : Bool :=
  truthyS k && (jsTrim k != "") && (k != "undefined")

/-- The fields of a `translate` message. -/
structure TranslateMsg where
  text : String
  url : Option String := none
  highlightedWord : Option String := none
deriving DecidableEq

/-- Model of `(res.targetLang || DEFAULT_TARGET_LANG).toLowerCase()` where the
storage read defaults `targetLang` to `"en"`. -/
def effLang (stored : Option String) : String :=
  jsToLower (jsOr (stored.getD "en") "en")

/-- Model of `message.url || sender.tab?.url || ''`. -/
def pageUrlOf (msgUrl senderTabUrl : Option String) : String :=
  jsOr (msgUrl.getD "") (senderTabUrl.getD "")

/-- State touched by the local-storage background relay
(`manifest.ts` embedded script): the stored `enabled` flag and
`targetLang`, the in-memory cache, and the `translations` list. -/
structure LocalState where
  enabled : Option Bool := none
  targetLang : Option String := none
  cache : List (String × String) := []
  translations : List Record := []
deriving DecidableEq

/-- Result of one `translate` message on the local relay. -/
structure LocalResult where
  response : TranslationResponse
  state : LocalState
  networkCalled : Bool
deriving DecidableEq

/-- The `translate` handler of the local-storage relay
(`src/chrome-extension/manifest.ts`, embedded background script):
enabled check, empty-text short-circuit, in-memory cache hit (still
persisting a record), then either the DeepL call (valid API key) or the
`"[mock] "` placeholder. -/
def handleTranslateLocal (st : LocalState) (apiKey : String) (msg : TranslateMsg)
    (senderTabUrl : Option String) (now : Nat) (fetch : FetchOutcome) : LocalResult :=
  if !(st.enabled.getD true) then
    ⟨{ error := some "Extension is disabled" }, st, false⟩
  else
    let text := jsTrim (jsOr msg.text "")
    if text == "" then
      ⟨{ translation := some "" }, st, false⟩
    else
      let targetLang := effLang st.targetLang
      let pageUrl := pageUrlOf msg.url senderTabUrl
      let cacheKey := text ++ "|" ++ targetLang
      if truthyOS (cacheGet st.cache cacheKey) then
        let cv := (cacheGet st.cache cacheKey).getD ""
        ⟨{ translation := some cv, fromCache := some true },
         { st with translations := saveTranslationLocal st.translations text cv now pageUrl },
         false⟩
      else if apiKeyValid apiKey then
        match fetch with
        | .throws m =>
          ⟨{ translation := some ("[error: " ++ m ++ "]") }, st, true⟩
        | .ok entries =>
          let translation :=
            match entries with
            | [] => "[translation error: no translations in response]"
            | e :: _ => e.text
          ⟨{ translation := some translation },
           { st with
              cache := cacheSet st.cache cacheKey translation,
              translations := saveTranslationLocal st.translations text translation now pageUrl },
           true⟩
      else
        let translation := "[mock] " ++ text
        ⟨{ translation := some translation },
         { st with
            cache := cacheSet st.cache cacheKey translation,
            translations := saveTranslationLocal st.translations text translation now pageUrl },
         false⟩

/-! ## The Supabase-backed background script (second half of `src/unnamed/part_000`) -/

/-- A Supabase session as mirrored into `chrome.storage.local`
(`access_token`, `refresh_token`, `expires_at`, `user`); the user is
represented by its id. -/
structure SessionData where
  access_token : String := ""
  refresh_token : String := ""
  expires_at : Option Nat := none
  userId : Option String := none
deriving DecidableEq

/-- A row of the Supabase `flashcards` table, as inserted by the
background `saveTranslation`. -/
structure FlashRow where
  user_id : String
  original : String
  context : String
  translation : String
  url : String
  original_language : String
  translation_language : String
  date : Nat
deriving DecidableEq

/-- All state the Supabase-backed background script touches:
`chrome.storage.local` keys, the in-memory cache, the Supabase client's
current auth session, and the hosted `flashcards` table. -/
structure BgState where
  enabled : Option Bool := none
  targetLang : Option String := none
  supabaseSession : Option SessionData := none
  rememberMe : Option Bool := none
  userEmail : Option String := none
  cache : List (String × String) := []
  authSession : Option SessionData := none
  flashcards : List FlashRow := []
deriving DecidableEq

/-- Outcomes of the Supabase SDK calls made during one message, supplied
as an oracle (the SDK is external to the repository). -/
structure SupaOracle where
  getSessionError : Bool := false
  setSessionError : Option String := none
  refreshOutcome : Except String (Option SessionData) := Except.error "refresh failed"
  signOutError : Option String := none
  signInOutcome : Except String (Option String × Option SessionData) := Except.error "sign in failed"
  selectError : Bool := false
  insertError : Bool := false

/-- Model of `getCurrentSession`: `supabase.auth.getSession()`, `null` on error. -/
def getCurrentSession (o : SupaOracle) (st : BgState) : Option SessionData :=
  if o.getSessionError then none else st.authSession

/-- Model of `getCurrentUserId`: `session?.user?.id || null` (empty id is falsy). -/
def getCurrentUserId (o : SupaOracle) (st : BgState) : Option String :=
  match getCurrentSession o st with
  | none => none
  | some s =>
    match s.userId with
    | none => none
    | some uid => if uid == "" then none else some uid

/-- Model of `isSessionExpired`: true when there is no session or no (or zero)
`expires_at`, else `now >= expires_at` (`now` in seconds). -/
def isSessionExpired (s : Option SessionData) (now : Nat) : Bool :=
  match s with
  | none => true
  | some sd =>
    match sd.expires_at with
    | none => true
    | some e => decide (e ≤ now)

/-- Model of `clearStoredSessionData`: remove `supabaseSession` and `rememberMe`. -/
def clearStoredSessionData (st : BgState) : BgState :=
  { st with supabaseSession := none, rememberMe := none }

/-- Model of `storeSessionData`: mirror the session into storage when non-null. -/
def storeSessionData (s : Option SessionData) (st : BgState) : BgState :=
  match s with
  | none => st
  | some sd => { st with supabaseSession := some sd }

/-- Model of `restoreSession`: under `rememberMe`, put the stored session back into
the Supabase client, refreshing it first when expired; clears the stored
data when the SDK reports an error. -/
def restoreSession (o : SupaOracle) (st : BgState) (now : Nat) : Bool × BgState :=
  if !truthyOB st.rememberMe then (false, st)
  else
    match st.supabaseSession with
    | none => (false, st)
    | some stored =>
      if isSessionExpired (some stored) now then
        match o.setSessionError with
        | some _ => (false, clearStoredSessionData st)
        | none =>
          let st1 := { st with authSession := some stored }
          match o.refreshOutcome with
          | Except.error _ => (false, clearStoredSessionData st1)
          | Except.ok none => (false, st1)
          | Except.ok (some s) => (true, storeSessionData (some s) { st1 with authSession := some s })
      else
        match o.setSessionError with
        | some _ => (false, clearStoredSessionData st)
        | none => (true, { st with authSession := some stored })

/-- Model of `ensureAuthenticated`: `rememberMe` is required; a present, unexpired
client session suffices, otherwise try `restoreSession`. -/
def ensureAuthenticated (o : SupaOracle) (st : BgState) (now : Nat) : Bool × BgState :=
  if !truthyOB st.rememberMe then (false, st)
  else
    let s := getCurrentSession o st
    if s.isSome && !isSessionExpired s now then (true, st)
    else restoreSession o st now

/-- The Supabase-backed `saveTranslation`: skip unless authenticated with
a user id, then insert one row into `flashcards`
(`translation_language` defaults to `targetLang`). -/
def saveTranslationSupabase (o : SupaOracle) (st : BgState) (now : Nat)
    (original translation url targetLang contextText originalLang translationLang : String) :
    BgState :=
  let ea := ensureAuthenticated o st now
  if !ea.1 then ea.2
  else
    match getCurrentUserId o ea.2 with
    | none => ea.2
    | some uid =>
      let finalTranslationLang := jsOr translationLang targetLang
      if o.insertError then ea.2
      else
        { ea.2 with
            flashcards := ea.2.flashcards ++
              [⟨uid, original, contextText, translation, url, originalLang,
                finalTranslationLang, now⟩] }

/-- Model of `checkSupabaseCache`: under authentication, the newest `flashcards`
row whose `original` and `user_id` match (the query never filters by
language); `null` otherwise. -/
def checkSupabaseCache (o : SupaOracle) (st : BgState) (now : Nat)
    (text targetLang : String) : Option String × BgState :=
  let ea := ensureAuthenticated o st now
  if !ea.1 then (none, ea.2)
  else
    match getCurrentUserId o ea.2 with
    | none => (none, ea.2)
    | some uid =>
      if o.selectError then (none, ea.2)
      else
        (((ea.2.flashcards.filter
            (fun r => r.original == text && r.user_id == uid)).getLast?).map
          FlashRow.translation, ea.2)

/-- The `AuthResponse` objects returned by the auth handlers; the user is
represented by its id. -/
structure AuthResponse where
  success : Bool
  user : Option String := none
  error : Option String := none
  session : Option SessionData := none
deriving DecidableEq

/-- Model of `handleSignIn`: on SDK success optionally persist the session under
`rememberMe`; on error clear the stored session data and report failure. -/
def handleSignIn (o : SupaOracle) (st : BgState) (email _password : String)
    (remember : Bool) : AuthResponse × BgState :=
  match o.signInOutcome with
  | Except.error msg => (⟨false, none, some msg, none⟩, clearStoredSessionData st)
  | Except.ok (user, session) =>
    let st1 := { st with authSession := session }
    if remember && session.isSome then
      (⟨true, user, none, session⟩,
       storeSessionData session { st1 with rememberMe := some true, userEmail := some email })
    else
      (⟨true, user, none, session⟩, st1)

/-- Model of `handleSignOut`: on SDK success clear the stored session data. -/
def handleSignOut (o : SupaOracle) (st : BgState) : AuthResponse × BgState :=
  match o.signOutError with
  | some msg => (⟨false, none, some msg, none⟩, st)
  | none => (⟨true, none, none, none⟩, clearStoredSessionData { st with authSession := none })

/-- Model of `handleGetSession`: fails unless `rememberMe` is set; otherwise tries
`restoreSession` and reports the restored session. -/
def handleGetSession (o : SupaOracle) (st : BgState) (now : Nat) : AuthResponse × BgState :=
  if !truthyOB st.rememberMe then
    (⟨false, none, some "Remember me not enabled", none⟩, st)
  else
    let r := restoreSession o st now
    if r.1 then
      let s := getCurrentSession o r.2
      (⟨true, s.bind SessionData.userId, none, s⟩, r.2)
    else
      (⟨false, none, some "Could not restore session", none⟩, r.2)

/-- Model of `handleRefreshSession`: refresh through the SDK, persisting the new
session on success, clearing stored data on error. -/
def handleRefreshSession (o : SupaOracle) (st : BgState) : AuthResponse × BgState :=
  match o.refreshOutcome with
  | Except.error msg => (⟨false, none, some msg, none⟩, clearStoredSessionData st)
  | Except.ok none => (⟨false, none, some "No session after refresh", none⟩, st)
  | Except.ok (some s) =>
    (⟨true, s.userId, none, some s⟩, storeSessionData (some s) { st with authSession := some s })

/-- Result of one `translate` message on the Supabase-backed relay.
`networkCalled` records whether the DeepL endpoint was contacted. -/
structure TransResult where
  response : TranslationResponse
  state : BgState
  networkCalled : Bool
deriving DecidableEq

/-- The `translate` handler of the Supabase-backed relay
(`src/unnamed/part_000`, second listener): enabled check, empty-text
short-circuit, in-memory cache hit, Supabase cache check, then the DeepL
call when a valid API key is configured, else an error response. -/
def translateSupabase (o : SupaOracle) (st : BgState) (apiKey : String)
    (msg : TranslateMsg) (senderTabUrl : Option String) (now : Nat)
    (fetch : FetchOutcome) : TransResult :=
  if !(st.enabled.getD true) then
    ⟨{ error := some "Extension is disabled" }, st, false⟩
  else
    let text := jsTrim (jsOr msg.text "")
    if text == "" then
      ⟨{ translation := some "" }, st, false⟩
    else
      let targetLang := effLang st.targetLang
      let pageUrl := pageUrlOf msg.url senderTabUrl
      let highlightedWord := if truthyOS msg.highlightedWord then msg.highlightedWord.getD "" else text
      let contextText := if truthyOS msg.highlightedWord then text else ""
      let cacheKey := highlightedWord ++ "|" ++ targetLang
      if truthyOS (cacheGet st.cache cacheKey) then
        let cv := (cacheGet st.cache cacheKey).getD ""
        let st1 := saveTranslationSupabase o st now highlightedWord cv pageUrl targetLang
          contextText "auto" targetLang
        ⟨{ translation := some cv, fromCache := some true }, st1, false⟩
      else
        let chk := checkSupabaseCache o st now highlightedWord targetLang
        if truthyOS chk.1 then
          let sv := chk.1.getD ""
          let st2 := { chk.2 with cache := cacheSet chk.2.cache cacheKey sv }
          let st3 := saveTranslationSupabase o st2 now highlightedWord sv pageUrl targetLang
            contextText "auto" targetLang
          ⟨{ translation := some sv, fromCache := some true }, st3, false⟩
        else if apiKeyValid apiKey then
          match fetch with
          | .throws _ => ⟨{ translation := some "[error]" }, chk.2, true⟩
          | .ok entries =>
            match entries with
            | [] =>
              let translation := "[translation error]"
              let st2 := { chk.2 with cache := cacheSet chk.2.cache cacheKey translation }
              let st3 := saveTranslationSupabase o st2 now highlightedWord translation pageUrl
                targetLang contextText "auto" targetLang
              ⟨{ translation := some translation }, st3, true⟩
            | e :: _ =>
              let translation := e.text
              let detected := jsOr (e.detected_source_language.getD "") "auto"
              let st2 := { chk.2 with cache := cacheSet chk.2.cache cacheKey translation }
              let st3 := saveTranslationSupabase o st2 now highlightedWord translation pageUrl
                targetLang contextText detected targetLang
              ⟨{ translation := some translation }, st3, true⟩
        else
          ⟨{ error := some "API key not configured" }, chk.2, false⟩

/-- The actions of an auth message. -/
inductive AuthAction where
  | signin
  | signout
  | getSession
  | refreshSession
deriving DecidableEq

/-- An incoming runtime message: a translate request or an auth request. -/
inductive InMsg where
  | translate (msg : TranslateMsg)
  | auth (action : AuthAction) (email password : Option String) (remember : Option Bool)
deriving DecidableEq

/-- The value passed to `sendResponse`, when it is called at all. -/
inductive Response where
  | trans (r : TranslationResponse)
  | auth (r : AuthResponse)
deriving DecidableEq

/-- Result of one message on the Supabase-backed listener. `response = none`
means the handler finished without ever invoking `sendResponse`. -/
structure MsgResult where
  response : Option Response
  state : BgState
  networkCalled : Bool
deriving DecidableEq

/-- The full `onMessage` listener of the Supabase-backed background
script: auth dispatch (note the `signin` case guards on
`message.email && message.password` with no else branch) and the
translate handler. -/
def handleMessage (o : SupaOracle) (st : BgState) (apiKey : String) (m : InMsg)
    (senderTabUrl : Option String) (now : Nat) (fetch : FetchOutcome) : MsgResult :=
  match m with
  | .auth a email password remember =>
    match a with
    | .signin =>
      if truthyOS email && truthyOS password then
        let r := handleSignIn o st (email.getD "") (password.getD "") (remember.getD false)
        ⟨some (.auth r.1), r.2, false⟩
      else
        ⟨none, st, false⟩
    | .signout =>
      let r := handleSignOut o st
      ⟨some (.auth r.1), r.2, false⟩
    | .getSession =>
      let r := handleGetSession o st now
      ⟨some (.auth r.1), r.2, false⟩
    | .refreshSession =>
      let r := handleRefreshSession o st
      ⟨some (.auth r.1), r.2, false⟩
  | .translate tm =>
    let r := translateSupabase o st apiKey tm senderTabUrl now fetch
    ⟨some (.trans r.response), r.state, r.networkCalled⟩

/-! ## Flashcard import (`Flashcard.tsx` / content `index.ts`) -/

/-- An element of a parsed JSON import file; any of the expected fields
may be absent. -/
structure RawItem where
  original : Option String := none
  translation : Option String := none
  date : Option String := none
  url : Option String := none
deriving DecidableEq

/-- The per-element validation `t.original && t.translation && t.date`
(JS truthiness: an absent field or an empty string fails). -/
def validItem (t : RawItem) : Bool :=
  truthyOS t.original && truthyOS t.translation && truthyOS t.date

/-- Model of `importFlashcards`: `parsed = none` models a non-array JSON value (or
a parse error). A valid array is merged as `[...existing, ...translations]`
with no truncation; anything else leaves storage untouched. The boolean
reports whether the import was accepted. -/
def importFlashcards (parsed : Option (List RawItem)) (existing : List RawItem) :
    List RawItem × Bool :=
  match parsed with
  | none => (existing, false)
  | some items =>
    if items.all validItem then (existing ++ items, true) else (existing, false)

/-- The messages whose handler path reaches a `sendResponse` call: every
translate message, and every auth message except a `signin` whose email
or password is missing or empty (the `signin` case of the dispatch guards
on `message.email && message.password` and has no else branch). -/
def respondableMsg : InMsg → Bool
  | .translate _ => true
  | .auth .signin email password _ => truthyOS email && truthyOS password
  | .auth _ _ _ _ => true

/-! ## Theorems -/

/-- Lemma: `jsOr` with an empty default is the identity. -/
@[simp] theorem jsOr_empty_right (a : String) : jsOr a "" = a := by
  unfold jsOr
  split <;> simp_all

@[simp] theorem truthyOS_none : truthyOS none = false := rfl

@[simp] theorem truthyOS_some (s : String) : truthyOS (some s) = (s != "") := rfl

/-- C5: for every translate request on the Supabase-backed relay, a stored
`enabled` flag of `false` makes the handler answer
`{error: "Extension is disabled"}` and leave all state untouched without
any network call, regardless of the cache, the request text, the API key,
and the provider outcome: the disabled check precedes the cache lookup and
the empty-text short-circuit. -/
theorem translate_disabled_always_errors
    (o : SupaOracle) (st : BgState) (apiKey : String) (msg : TranslateMsg)
    (senderTabUrl : Option String) (now : Nat) (fetch : FetchOutcome)
    (h : st.enabled = some false) :
    translateSupabase o st apiKey msg senderTabUrl now fetch =
      ⟨{ error := some "Extension is disabled" }, st, false⟩ := by
  simp [translateSupabase, h]

/-- Witness for C5 at a concrete disabled state whose cache even holds an
entry for the requested text. -/
theorem translate_disabled_always_errors_check :
    ({ enabled := some false, cache := [("bonjour|en", "hi")] } : BgState).enabled
        = some false ∧
    translateSupabase {} { enabled := some false, cache := [("bonjour|en", "hi")] } "key"
        ⟨"bonjour", none, none⟩ none 0 (.ok []) =
      ⟨{ error := some "Extension is disabled" },
       { enabled := some false, cache := [("bonjour|en", "hi")] }, false⟩ :=
  ⟨rfl, translate_disabled_always_errors {} _ "key" _ none 0 _ rfl⟩

/-- C9: on the Supabase-backed relay, a translate request whose text trims
to the empty string (with the extension enabled) answers
`{translation: ""}` with no provider call and no state change. -/
theorem translate_empty_text_short_circuit
    (o : SupaOracle) (st : BgState) (apiKey : String) (msg : TranslateMsg)
    (senderTabUrl : Option String) (now : Nat) (fetch : FetchOutcome)
    (hEn : st.enabled.getD true = true)
    (hTxt : jsTrim msg.text = "") :
    translateSupabase o st apiKey msg senderTabUrl now fetch =
      ⟨{ translation := some "" }, st, false⟩ := by
  simp [translateSupabase, hEn, hTxt]

/-- Witness for C9 on whitespace-only text. -/
theorem translate_empty_text_short_circuit_check :
    jsTrim ("  " : String) = "" ∧
    translateSupabase {} {} "key" ⟨"  ", none, none⟩ none 0 (.ok []) =
      ⟨{ translation := some "" }, {}, false⟩ :=
  ⟨by decide, translate_empty_text_short_circuit {} {} "key" ⟨"  ", none, none⟩ none 0 _
    rfl (by decide)⟩

/-- C8: after a successful sign-out the mirrored session and the
remember-me flag are cleared from storage, and any subsequent get-session
call on the resulting state answers `success: false` (with the
"Remember me not enabled" error) instead of the previous user's data. -/
theorem signout_clears_session_then_getSession_fails
    (o o2 : SupaOracle) (st : BgState) (now : Nat)
    (h : o.signOutError = none) :
    (handleSignOut o st).1.success = true ∧
    (handleSignOut o st).2.supabaseSession = none ∧
    (handleSignOut o st).2.rememberMe = none ∧
    (handleGetSession o2 (handleSignOut o st).2 now).1 =
      ⟨false, none, some "Remember me not enabled", none⟩ ∧
    (handleGetSession o2 (handleSignOut o st).2 now).2 = (handleSignOut o st).2 := by
  simp [handleSignOut, handleGetSession, clearStoredSessionData, h, truthyOB]

/-- Witness for C8: a signed-in, remembered state, a default oracle
(whose `signOut` succeeds). -/
theorem signout_clears_session_then_getSession_fails_check :
    ({} : SupaOracle).signOutError = none ∧
    (handleGetSession {}
        (handleSignOut {}
          { rememberMe := some true,
            supabaseSession := some { userId := some "u1" },
            authSession := some { userId := some "u1" } }).2 0).1.success = false :=
  ⟨rfl,
    by
      have h := signout_clears_session_then_getSession_fails {} {}
        { rememberMe := some true,
          supabaseSession := some { userId := some "u1" },
          authSession := some { userId := some "u1" } } 0 rfl
      rw [h.2.2.2.1]⟩

/-- C10: when the in-memory cache maps the request's key to the empty
string (a cached empty provider translation) and the Supabase lookup
yields nothing truthy either, the hit test `if (cache[cacheKey])` treats
the entry as a miss: the request reaches the provider again
(`networkCalled = true`) and the response is not served from the cache
(`fromCache` unset), for any provider outcome. -/
theorem translate_cached_empty_treated_as_miss
    (o : SupaOracle) (st : BgState) (apiKey : String) (msg : TranslateMsg)
    (senderTabUrl : Option String) (now : Nat) (fetch : FetchOutcome)
    (hEn : st.enabled.getD true = true)
    (hHW : msg.highlightedWord = none)
    (hTxt : jsTrim msg.text ≠ "")
    (hCache : cacheGet st.cache (jsTrim msg.text ++ "|" ++ effLang st.targetLang) = some "")
    (hSupa : truthyOS
      (checkSupabaseCache o st now (jsTrim msg.text) (effLang st.targetLang)).1 = false)
    (hKey : apiKeyValid apiKey = true) :
    (translateSupabase o st apiKey msg senderTabUrl now fetch).networkCalled = true ∧
    (translateSupabase o st apiKey msg senderTabUrl now fetch).response.fromCache = none := by
  cases fetch with
  | throws m =>
    simp [translateSupabase, hEn, hHW, hTxt, hCache, hSupa, hKey]
  | ok entries =>
    cases entries with
    | nil => simp [translateSupabase, hEn, hHW, hTxt, hCache, hSupa, hKey]
    | cons e rest => simp [translateSupabase, hEn, hHW, hTxt, hCache, hSupa, hKey]

/-- Witness for C10: an unauthenticated state whose cache holds the empty
string for `"bonjour"` into English; the provider is contacted again. -/
theorem translate_cached_empty_treated_as_miss_check :
    cacheGet [("bonjour|en", "")] (jsTrim "bonjour" ++ "|" ++ effLang none) = some "" ∧
    (translateSupabase {} { cache := [("bonjour|en", "")] } "key"
        ⟨"bonjour", none, none⟩ none 0 (.ok [])).networkCalled = true :=
  ⟨by decide,
    (translate_cached_empty_treated_as_miss {} { cache := [("bonjour|en", "")] } "key"
      ⟨"bonjour", none, none⟩ none 0 (.ok []) rfl rfl (by decide) (by decide) (by decide)
      (by decide)).1⟩

/-- Below the 100-record cap, `saveTranslation` is a plain append. -/
theorem saveTranslationLocal_append (l : List Record) (a b : String) (c : Nat) (d : String)
    (h : l.length < 100) :
    saveTranslationLocal l a b c d = l ++ [⟨a, b, c, d⟩] := by
  have h0 : (l ++ [(⟨a, b, c, d⟩ : Record)]).length - 100 = 0 := by
    simp only [List.length_append, List.length_singleton]
    omega
  simp only [saveTranslationLocal]
  rw [h0, List.drop_zero]

/-- C1 (amended, local-storage relay of `manifest.ts`): with no API
credential configured, an enabled extension, target language `en` and no
cached entry, the request `{text:"bonjour", url}` answers
`{translation:"[mock] bonjour"}` — not an error — caches it, appends
exactly one record carrying the page URL to the local store and contacts
no network. -/
theorem local_relay_mock_when_no_api_key
    (st : LocalState) (u : String) (senderTabUrl : Option String) (now : Nat)
    (fetch : FetchOutcome)
    (hEn : st.enabled.getD true = true)
    (hLang : effLang st.targetLang = "en")
    (hMiss : truthyOS (cacheGet st.cache "bonjour|en") = false)
    (hu : u ≠ "")
    (hLen : st.translations.length < 100) :
    handleTranslateLocal st "" ⟨"bonjour", some u, none⟩ senderTabUrl now fetch =
      ⟨{ translation := some "[mock] bonjour" },
       { st with
          cache := cacheSet st.cache "bonjour|en" "[mock] bonjour",
          translations := st.translations ++ [⟨"bonjour", "[mock] bonjour", now, u⟩] },
       false⟩ := by
  have ht : jsTrim "bonjour" = "bonjour" := by decide
  have hk : "bonjour" ++ "|" ++ "en" = "bonjour|en" := by decide
  have hm : "[mock] " ++ "bonjour" = "[mock] bonjour" := by decide
  have hak : apiKeyValid "" = false := by decide
  simp [handleTranslateLocal, hEn, ht, hLang, hk, hm, hak, hMiss, pageUrlOf, jsOr, hu,
    saveTranslationLocal_append, hLen]

/-- Witness for C1 (amended): the initial state, a concrete page URL. -/
theorem local_relay_mock_when_no_api_key_check :
    ({} : LocalState).translations.length < 100 ∧
    handleTranslateLocal {} "" ⟨"bonjour", some "https://fr.example/x", none⟩ none 7 (.ok []) =
      ⟨{ translation := some "[mock] bonjour" },
       { cache := [("bonjour|en", "[mock] bonjour")],
         translations := [⟨"bonjour", "[mock] bonjour", 7, "https://fr.example/x"⟩] },
       false⟩ :=
  ⟨by decide,
    local_relay_mock_when_no_api_key {} "https://fr.example/x" none 7 (.ok []) rfl
      (by decide) rfl (by decide) (by decide)⟩

/-- C1 counterexample: the Supabase-backed relay of `part_000` answers
`{error: "API key not configured"}` to the same request — an error, no
placeholder translation, and no record appended anywhere. -/
theorem supabase_relay_no_key_is_error :
    translateSupabase {} {} "" ⟨"bonjour", some "https://fr.example/x", none⟩ none 7 (.ok []) =
      ⟨{ error := some "API key not configured" }, {}, false⟩ := by
  decide

/-- C2 (amended): every translate request and every auth action whose
required fields are present always ends in a `sendResponse` call, for
every state, oracle outcome and provider outcome; the one uncovered path
is a `signin` with a missing/empty email or password. -/
theorem covered_messages_always_respond
    (o : SupaOracle) (st : BgState) (apiKey : String) (m : InMsg)
    (senderTabUrl : Option String) (now : Nat) (fetch : FetchOutcome)
    (h : respondableMsg m = true) :
    (handleMessage o st apiKey m senderTabUrl now fetch).response.isSome = true := by
  cases m with
  | translate tm => simp [handleMessage]
  | auth a email password remember =>
    cases a with
    | signin =>
      simp only [respondableMsg] at h
      simp [handleMessage, h]
    | signout => simp [handleMessage]
    | getSession => simp [handleMessage]
    | refreshSession => simp [handleMessage]

/-- Witness for C2 (amended): a signout message gets a response. -/
theorem covered_messages_always_respond_check :
    respondableMsg (.auth .signout none none none) = true ∧
    (handleMessage {} {} "" (.auth .signout none none none) none 0 (.ok [])).response.isSome
      = true :=
  ⟨rfl, covered_messages_always_respond {} {} "" (.auth .signout none none none) none 0
    (.ok []) rfl⟩

/-- C2 counterexample: a `signin` auth message with a missing email (and a
present password) ends with no `sendResponse` call at all — the handler's
`if (message.email && message.password)` has no else branch. -/
theorem signin_missing_email_never_responds :
    (handleMessage {} {} "" (.auth .signin none (some "pw") none) none 0 (.ok [])).response
      = none := by
  decide

/-- Folding records into the local store keeps exactly the newest ones:
from a start of at most 100 records, the result is a suffix of
`start ++ rs`. -/
theorem insertAll_drop (rs : List Record) :
    ∀ start : List Record, start.length ≤ 100 →
      insertAll start rs = (start ++ rs).drop (start.length + rs.length - 100) := by
  induction rs with
  | nil =>
    intro start h
    simp [insertAll, Nat.sub_eq_zero_of_le h]
  | cons r rs ih =>
    intro start h
    have hstep : insertAll start (r :: rs) =
        insertAll (saveTranslationLocal start r.original r.translation r.date r.url) rs := rfl
    rw [hstep]
    rcases Nat.lt_or_ge start.length 100 with hlt | hge
    · rw [saveTranslationLocal_append _ _ _ _ _ hlt]
      rw [ih (start ++ [r]) (by simp; omega)]
      have hidx : (start ++ [r]).length + rs.length - 100 =
          start.length + (r :: rs).length - 100 := by
        simp
        omega
      rw [hidx, List.append_assoc]
      simp
    · have h100 : start.length = 100 := Nat.le_antisymm h hge
      have hsave : saveTranslationLocal start r.original r.translation r.date r.url =
          (start ++ [r]).drop 1 := by
        simp only [saveTranslationLocal]
        congr 1
        simp [h100]
      rw [hsave]
      have hlen1 : ((start ++ [r]).drop 1).length = 100 := by
        simp [h100]
      rw [ih _ (by rw [hlen1])]
      rw [hlen1]
      have hd1 : (start ++ [r]).drop 1 ++ rs = ((start ++ [r]) ++ rs).drop 1 :=
        (List.drop_append_of_le_length (by simp)).symm
      rw [hd1, List.drop_drop]
      rw [List.append_assoc]
      have hidx2 : start.length + (r :: rs).length - 100 = 1 + (100 + rs.length - 100) := by
        simp [h100]
        omega
      rw [hidx2]
      simp

/-- C3 (amended, `saveTranslation` part): the background `saveTranslation`
keeps the local `translations` list capped: inserting any sequence of
records into an empty store leaves exactly the most recent 100 (for 105
sequential records, the last 100), oldest-first order preserved, and the
result never exceeds 100 records. -/
theorem local_store_keeps_most_recent_100 (rs : List Record) :
    insertAll [] rs = rs.drop (rs.length - 100) ∧ (insertAll [] rs).length ≤ 100 := by
  have h := insertAll_drop rs [] (by simp)
  simp only [List.nil_append, List.length_nil, Nat.zero_add] at h
  refine ⟨h, ?_⟩
  rw [h]
  simp
  omega

/-- C3 counterexample: the flashcard import merge does not truncate — on a
store already holding 100 records, importing one more valid record leaves
101 in the persisted list. -/
theorem import_can_exceed_cap :
    100 < ((importFlashcards (some [⟨some "a", some "b", some "c", none⟩])
        (List.replicate 100 ⟨some "a", some "b", some "c", none⟩)).1).length := by
  decide

/-- C7 (amended): a non-array import, or one where any element fails the
truthiness check on `original`, `translation` or `date`, is rejected
wholesale — the persisted list is unchanged, no partial merge; when every
element passes the check (all three fields present with non-empty
values), all imported records are appended after the existing ones. -/
theorem import_all_or_nothing (parsed : Option (List RawItem)) (existing : List RawItem) :
    (parsed = none → importFlashcards parsed existing = (existing, false)) ∧
    (∀ items, parsed = some items → (∃ t ∈ items, validItem t = false) →
      importFlashcards parsed existing = (existing, false)) ∧
    (∀ items, parsed = some items → (∀ t ∈ items, validItem t = true) →
      importFlashcards parsed existing = (existing ++ items, true)) := by
  refine ⟨fun h => by simp [importFlashcards, h], ?_, ?_⟩
  · rintro items rfl ⟨t, ht, hbad⟩
    have hall : items.all validItem = false := by
      rw [List.all_eq_false]
      exact ⟨t, ht, by simp [hbad]⟩
    simp [importFlashcards, hall]
  · rintro items rfl hall
    have : items.all validItem = true := List.all_eq_true.mpr (fun t ht => hall t ht)
    simp [importFlashcards, this]

/-- Witness for C7 (amended): a fully valid one-element import is merged. -/
theorem import_all_or_nothing_check :
    importFlashcards (some [⟨some "hola", some "hello", some "2024-01-01", none⟩]) [] =
      ([] ++ [⟨some "hola", some "hello", some "2024-01-01", none⟩], true) :=
  (import_all_or_nothing _ _).2.2 _ rfl (by decide)

/-- C7 counterexample: an element carrying all three required fields is
still rejected when one of them is the empty string (`t.original &&
t.translation && t.date` is a truthiness test, not a presence test), so
"every element has all three fields" does not imply the records are
appended. -/
theorem import_rejects_present_but_empty_field :
    importFlashcards (some [⟨some "", some "hello", some "2024-01-01", none⟩]) [] =
      ([], false) ∧
    (importFlashcards (some [⟨some "", some "hello", some "2024-01-01", none⟩]) []).1 ≠
      [] ++ [⟨some "", some "hello", some "2024-01-01", none⟩] := by
  decide

/-- Lemma: `restoreSession` never touches the in-memory cache. -/
theorem restoreSession_cache (o : SupaOracle) (st : BgState) (now : Nat) :
    (restoreSession o st now).2.cache = st.cache := by
  unfold restoreSession clearStoredSessionData storeSessionData
  repeat' split
  all_goals simp

/-- Lemma: `ensureAuthenticated` never touches the in-memory cache. -/
theorem ensureAuthenticated_cache (o : SupaOracle) (st : BgState) (now : Nat) :
    (ensureAuthenticated o st now).2.cache = st.cache := by
  unfold ensureAuthenticated
  cases h1 : truthyOB st.rememberMe with
  | false => simp [h1]
  | true =>
    cases h2 : (getCurrentSession o st).isSome &&
        !isSessionExpired (getCurrentSession o st) now with
    | true => simp [h1, h2]
    | false => simp [h1, h2, restoreSession_cache]

/-- The Supabase `saveTranslation` never touches the in-memory cache. -/
theorem saveTranslationSupabase_cache (o : SupaOracle) (st : BgState) (now : Nat)
    (a b c d e f g : String) :
    (saveTranslationSupabase o st now a b c d e f g).cache = st.cache := by
  have hc := ensureAuthenticated_cache o st now
  unfold saveTranslationSupabase
  cases h1 : (ensureAuthenticated o st now).1 with
  | false => simp [h1, hc]
  | true =>
    cases h2 : getCurrentUserId o (ensureAuthenticated o st now).2 with
    | none => simp [h1, h2, hc]
    | some uid =>
      cases h3 : o.insertError with
      | true => simp [h1, h2, h3, hc]
      | false => simp [h1, h2, h3, hc]

/-- Lemma: `checkSupabaseCache` never touches the in-memory cache. -/
theorem checkSupabaseCache_cache (o : SupaOracle) (st : BgState) (now : Nat)
    (a b : String) :
    (checkSupabaseCache o st now a b).2.cache = st.cache := by
  have hc := ensureAuthenticated_cache o st now
  unfold checkSupabaseCache
  cases h1 : (ensureAuthenticated o st now).1 with
  | false => simp [h1, hc]
  | true =>
    cases h2 : getCurrentUserId o (ensureAuthenticated o st now).2 with
    | none => simp [h1, h2, hc]
    | some uid =>
      cases h3 : o.selectError with
      | true => simp [h1, h2, h3, hc]
      | false => simp [h1, h2, h3, hc]

/-- A cache write at one key leaves lookups at any other key unchanged. -/
theorem cacheGet_cacheSet_ne (c : List (String × String)) (k k' v : String)
    (h : k ≠ k') :
    cacheGet (cacheSet c k' v) k = cacheGet c k := by
  simp [cacheGet, cacheSet, List.find?_cons, Ne.symm h]

/-- Two keys differ when the cache holds a truthy value at one and not at
the other. -/
theorem ne_of_truthy_get (c : List (String × String)) (k k' : String)
    (h : truthyOS (cacheGet c k) = true) (h' : ¬truthyOS (cacheGet c k') = true) :
    k ≠ k' :=
  fun he => h' (he ▸ h)

/-- A write at a key whose current value is falsy cannot disturb a key
holding a truthy value. -/
theorem cacheGet_cacheSet_of_falsy (c : List (String × String)) (k k' v : String)
    (h : truthyOS (cacheGet c k) = true) (h' : ¬truthyOS (cacheGet c k') = true) :
    cacheGet (cacheSet c k' v) k = cacheGet c k :=
  cacheGet_cacheSet_ne c k k' v (ne_of_truthy_get c k k' h h')

/-- A translate request never removes or overwrites a cache entry holding
a non-empty translation (the only cache write happens in the miss branch,
i.e. at a key whose current value is falsy). -/
theorem translateSupabase_preserves_truthy_cache
    (o : SupaOracle) (st : BgState) (apiKey : String) (msg : TranslateMsg)
    (senderTabUrl : Option String) (now : Nat) (fetch : FetchOutcome) (k : String)
    (h : truthyOS (cacheGet st.cache k) = true) :
    cacheGet (translateSupabase o st apiKey msg senderTabUrl now fetch).state.cache k =
      cacheGet st.cache k := by
  simp only [translateSupabase]
  repeat' split
  all_goals
    simp_all [saveTranslationSupabase_cache, checkSupabaseCache_cache,
      cacheGet_cacheSet_of_falsy]

/-- Lemma: `handleSignIn` never touches the in-memory cache. -/
theorem handleSignIn_cache (o : SupaOracle) (st : BgState) (e p : String) (r : Bool) :
    (handleSignIn o st e p r).2.cache = st.cache := by
  unfold handleSignIn clearStoredSessionData storeSessionData
  repeat' split
  all_goals simp

/-- Lemma: `handleSignOut` never touches the in-memory cache. -/
theorem handleSignOut_cache (o : SupaOracle) (st : BgState) :
    (handleSignOut o st).2.cache = st.cache := by
  unfold handleSignOut clearStoredSessionData
  repeat' split
  all_goals simp

/-- Lemma: `handleGetSession` never touches the in-memory cache. -/
theorem handleGetSession_cache (o : SupaOracle) (st : BgState) (now : Nat) :
    (handleGetSession o st now).2.cache = st.cache := by
  unfold handleGetSession
  cases h1 : truthyOB st.rememberMe with
  | false => simp [h1]
  | true =>
    cases h2 : (restoreSession o st now).1 with
    | true => simp [h1, h2, restoreSession_cache]
    | false => simp [h1, h2, restoreSession_cache]

/-- Lemma: `handleRefreshSession` never touches the in-memory cache. -/
theorem handleRefreshSession_cache (o : SupaOracle) (st : BgState) :
    (handleRefreshSession o st).2.cache = st.cache := by
  unfold handleRefreshSession clearStoredSessionData storeSessionData
  repeat' split
  all_goals simp

/-- C6 (amended): no message handled by the relay ever removes or
overwrites a cache entry that holds a non-empty translation — once a key
maps to a non-empty value, every later lookup of that key yields the same
value until restart. (The cache key is the highlighted text joined by
`"|"` with the lowercased target language; an entry holding the empty
string is treated as a miss by `if (cache[cacheKey])` and so can be
overwritten, which is the one exception to the claim as stated.) -/
theorem cache_truthy_entries_stable
    (o : SupaOracle) (st : BgState) (apiKey : String) (m : InMsg)
    (senderTabUrl : Option String) (now : Nat) (fetch : FetchOutcome) (k : String)
    (h : truthyOS (cacheGet st.cache k) = true) :
    cacheGet (handleMessage o st apiKey m senderTabUrl now fetch).state.cache k =
      cacheGet st.cache k := by
  cases m with
  | translate tm =>
    simpa [handleMessage] using
      translateSupabase_preserves_truthy_cache o st apiKey tm senderTabUrl now fetch k h
  | auth a email password remember =>
    cases a with
    | signin =>
      simp only [handleMessage]
      split
      · simp [handleSignIn_cache]
      · rfl
    | signout => simp [handleMessage, handleSignOut_cache]
    | getSession => simp [handleMessage, handleGetSession_cache]
    | refreshSession => simp [handleMessage, handleRefreshSession_cache]

/-- Witness for C6 (amended): a populated entry survives a translate
request for the same text (which is answered from the cache). -/
theorem cache_truthy_entries_stable_check :
    truthyOS (cacheGet [("bonjour|en", "hello")] "bonjour|en") = true ∧
    cacheGet (handleMessage {} { cache := [("bonjour|en", "hello")] } "key"
        (.translate ⟨"bonjour", none, none⟩) none 0 (.ok [])).state.cache "bonjour|en" =
      cacheGet [("bonjour|en", "hello")] "bonjour|en" :=
  ⟨by decide,
    cache_truthy_entries_stable {} { cache := [("bonjour|en", "hello")] } "key"
      (.translate ⟨"bonjour", none, none⟩) none 0 (.ok []) "bonjour|en" (by decide)⟩

/-- C6 counterexample: an existing cache entry (mapping `"w|en"` to the
empty string) is overwritten by a later request — the lookup of that key
changes from `some ""` to `some "hello"`, so the relay does overwrite
existing cache entries. -/
theorem cache_entry_overwritten :
    cacheGet [("w|en", "")] "w|en" = some "" ∧
    cacheGet (translateSupabase {} { cache := [("w|en", "")] } "key" ⟨"w", none, none⟩
        none 0 (.ok [⟨"hello", none⟩])).state.cache "w|en" = some "hello" := by
  decide

/-- A cache write is immediately visible at the written key. -/
theorem cacheGet_cacheSet_same (c : List (String × String)) (k v : String) :
    cacheGet (cacheSet c k v) k = some v := by
  simp [cacheGet, cacheSet]

/-- C4 (amended): with a valid API key, an enabled extension, an
authenticated unexpired session, no cached value and no matching hosted
row, a translate request whose provider response carries a non-empty
translation caches it under `text ++ "|" ++ lowercased target language`
and answers it (`networkCalled = true`); a second identical request is
answered from the cache (`fromCache: true`) with no provider call — for
any provider outcome — and still inserts exactly one more row into the
persisted store. -/
theorem translate_success_caches_then_second_request_hits
    (o : SupaOracle) (st : BgState) (apiKey : String) (msg : TranslateMsg)
    (senderTabUrl : Option String) (now : Nat) (e : TranslationEntry)
    (rest : List TranslationEntry) (fetch2 : FetchOutcome) (sess : SessionData)
    (uid : String)
    (hEn : st.enabled.getD true = true)
    (hHW : msg.highlightedWord = none)
    (hTxt : jsTrim msg.text ≠ "")
    (hMiss : cacheGet st.cache (jsTrim msg.text ++ "|" ++ effLang st.targetLang) = none)
    (hrm : truthyOB st.rememberMe = true)
    (hgs : o.getSessionError = false)
    (has : st.authSession = some sess)
    (hexp : isSessionExpired (some sess) now = false)
    (huid : sess.userId = some uid)
    (hu : uid ≠ "")
    (hins : o.insertError = false)
    (hsel : o.selectError = false)
    (hrows : st.flashcards.filter
        (fun r => r.original == jsTrim msg.text && r.user_id == uid) = [])
    (hKey : apiKeyValid apiKey = true)
    (hTr : e.text ≠ "") :
    (translateSupabase o st apiKey msg senderTabUrl now (.ok (e :: rest))).response =
        { translation := some e.text } ∧
    (translateSupabase o st apiKey msg senderTabUrl now (.ok (e :: rest))).networkCalled
        = true ∧
    cacheGet (translateSupabase o st apiKey msg senderTabUrl now (.ok (e :: rest))).state.cache
        (jsTrim msg.text ++ "|" ++ effLang st.targetLang) = some e.text ∧
    (translateSupabase o
        (translateSupabase o st apiKey msg senderTabUrl now (.ok (e :: rest))).state
        apiKey msg senderTabUrl now fetch2).response =
      { translation := some e.text, fromCache := some true } ∧
    (translateSupabase o
        (translateSupabase o st apiKey msg senderTabUrl now (.ok (e :: rest))).state
        apiKey msg senderTabUrl now fetch2).networkCalled = false ∧
    (translateSupabase o
        (translateSupabase o st apiKey msg senderTabUrl now (.ok (e :: rest))).state
        apiKey msg senderTabUrl now fetch2).state.flashcards.length =
      (translateSupabase o st apiKey msg senderTabUrl now
        (.ok (e :: rest))).state.flashcards.length + 1 := by
  have hea : ensureAuthenticated o st now = (true, st) := by
    simp [ensureAuthenticated, getCurrentSession, hrm, hgs, has, hexp]
  have huid' : getCurrentUserId o st = some uid := by
    simp [getCurrentUserId, getCurrentSession, hgs, has, huid, hu]
  have hchk : checkSupabaseCache o st now (jsTrim msg.text) (effLang st.targetLang) =
      (none, st) := by
    simp [checkSupabaseCache, hea, huid', hsel, hrows]
  refine ⟨?_, ?_, ?_, ?_, ?_, ?_⟩ <;>
    simp [translateSupabase, saveTranslationSupabase, ensureAuthenticated,
      getCurrentSession, getCurrentUserId, hEn, hHW, hTxt, hMiss, hchk, hKey, hrm, hgs,
      has, hexp, huid, hu, hins, cacheGet_cacheSet_same, hTr]

/-- Witness for C4 (amended): concrete authenticated state, provider
answers `"hello"`; the second request is served from cache even though
the provider is down. -/
theorem translate_success_caches_then_second_request_hits_check :
    apiKeyValid "key" = true ∧
    (translateSupabase {}
        (translateSupabase {}
          { rememberMe := some true,
            authSession := some { access_token := "at", refresh_token := "rt",
                                  expires_at := some 1000, userId := some "u1" } }
          "key" ⟨"bonjour", none, none⟩ none 0 (.ok [⟨"hello", none⟩])).state
        "key" ⟨"bonjour", none, none⟩ none 0 (.throws "down")).response =
      { translation := some "hello", fromCache := some true } :=
  ⟨by decide,
    (translate_success_caches_then_second_request_hits {}
      { rememberMe := some true,
        authSession := some { access_token := "at", refresh_token := "rt",
                              expires_at := some 1000, userId := some "u1" } }
      "key" ⟨"bonjour", none, none⟩ none 0 ⟨"hello", none⟩ [] (.throws "down")
      { access_token := "at", refresh_token := "rt", expires_at := some 1000,
        userId := some "u1" } "u1"
      rfl rfl (by decide) rfl rfl rfl rfl (by decide) rfl (by decide) rfl rfl rfl
      (by decide) (by decide)).2.2.2.1⟩

/-- C4 counterexample: when the successful provider response carries the
empty string, the result is cached but the second identical request still
issues a new provider call — the cached empty value is never served. -/
theorem translate_empty_success_not_served_from_cache :
    (translateSupabase {} {} "key" ⟨"bonjour", none, none⟩ none 0 (.ok [⟨"", none⟩])).response =
      { translation := some "" } ∧
    (translateSupabase {}
        (translateSupabase {} {} "key" ⟨"bonjour", none, none⟩ none 0
          (.ok [⟨"", none⟩])).state
        "key" ⟨"bonjour", none, none⟩ none 0 (.ok [⟨"", none⟩])).networkCalled = true := by
  decide

end HighlightTranslator
